import Mathlib

/-!
Shallow embedding of the resumable backtest engine of this repository:
the portfolio ledger (`trade_manager.py`), the day-by-day backtest
orchestrator loop (`backtest_runner.py`), and the rate-limit gate
(`tradingagents/dataflows/alpha_vantage_news.py`).

Python floats are modelled as exact rationals (ℚ), share counts as ℤ,
and the Excel file `results/{ticker}_backtest_results.xlsx` as an explicit
`persisted` field carried in the `TradeManager` state.  Fallible external
actions (reading the decision artifact, running the AI, writing the Excel
file) are modelled by `Except` values / a boolean outcome supplied as input.
-/

/-- One row of the backtest ledger, with the exact column set written by
`execute_trade` in `trade_manager.py` (keys `Date`, `Ticker`, `Signal`,
`Action`, `Open_Price`, `Shares_Delta`, `Transaction_Amount`, `Cash`,
`Shares`, `Total_Value`, `Cumulative_Return_Pct`). -/
structure Record where
  Date : String
  Ticker : String
  Signal : String
  Action : String
  Open_Price : ℚ
  Shares_Delta : ℤ
  Transaction_Amount : ℚ
  Cash : ℚ
  Shares : ℤ
  Total_Value : ℚ
  Cumulative_Return_Pct : ℚ
deriving Repr, DecidableEq

/-- Python's `round(x, 2)` (banker's rounding to two decimal places),
used for the `Cumulative_Return_Pct` column. -/
def round2 (q : ℚ) : ℚ :=
  let x := q * 100
  let n : ℤ := Rat.floor x
  let frac := x - (n : ℚ)
  let r : ℤ :=
    if frac < 1 / 2 then n
    else if 1 / 2 < frac then n + 1
    else if n % 2 = 0 then n else n + 1
  (r : ℚ) / 100

/-- The `TradeManager` object state from `trade_manager.py`: cash
(`self.capital`), share count (`self.shares`), the immutable
`initial_capital`, the in-memory record list (`self.records`), plus the
content of the durable Excel store at `self.file_path`, modelled
explicitly as `persisted`. -/
structure TradeManager where
  ticker : String
  capital : ℚ
  shares : ℤ
  initial_capital : ℚ
  records : List Record
  persisted : List Record
deriving Repr, DecidableEq

/-- `TradeManager.save_to_excel`: rewrites the whole Excel file from
`self.records` (a full rewrite, not an incremental append). -/
def TradeManager.save_to_excel (tm : TradeManager) : TradeManager :=
  { tm with persisted := tm.records }

/-- `TradeManager.execute_trade` from `trade_manager.py` lines 31-92.
Computes the trade (all-in BUY / all-out SELL / HOLD), mutates
capital/shares, appends the record to `self.records`, then calls
`self.save_to_excel()`.  `persist_ok` is the outcome of that write: when
it is `false` the write raises, so the durable `persisted` content is
left unchanged while the in-memory mutations (already applied to `self`)
remain; the raised exception is the caller's to handle.  The produced
record is returned alongside the new state in both cases. -/
def TradeManager.execute_trade (tm : TradeManager) (date : String) (signal : String)
    (open_price : ℚ) (persist_ok : Bool) : TradeManager × Record :=
  let step : ℚ × ℤ × String × ℤ × ℚ :=
    if signal = "BUY" ∧ 0 < tm.capital then
      let available_cash := tm.capital * 1
      let buy_shares : ℤ := Rat.floor (available_cash / open_price)
      if 0 < buy_shares then
        let cost := (buy_shares : ℚ) * open_price
        (tm.capital - cost, tm.shares + buy_shares, "BUY", buy_shares, cost)
      else
        (tm.capital, tm.shares, "HOLD", 0, 0)
    else if signal = "SELL" ∧ 0 < tm.shares then
      let revenue := (tm.shares : ℚ) * open_price
      (tm.capital + revenue, 0, "SELL", -tm.shares, revenue)
    else
      (tm.capital, tm.shares, "HOLD", 0, 0)
  let capital := step.1
  let shares := step.2.1
  let action := step.2.2.1
  let shares_delta := step.2.2.2.1
  let amount := step.2.2.2.2
  let total_value := capital + (shares : ℚ) * open_price
  let total_return := (total_value - tm.initial_capital) / tm.initial_capital * 100
  let record : Record :=
    { Date := date, Ticker := tm.ticker, Signal := signal, Action := action,
      Open_Price := open_price, Shares_Delta := shares_delta,
      Transaction_Amount := amount, Cash := capital, Shares := shares,
      Total_Value := total_value, Cumulative_Return_Pct := round2 total_return }
  let tm' := { tm with capital := capital, shares := shares,
                       records := tm.records ++ [record] }
  if persist_ok then (tm'.save_to_excel, record) else (tm', record)

/-- What reading the persisted Excel store can yield at startup:
the file is absent, the file exists but `pd.read_excel` raises, or the
file parses to a row list. -/
inductive StoreRead where
  | absent
  | unreadable
  | ok (rows : List Record)
deriving Repr, DecidableEq

/-- `TradeManager.load_state` from `trade_manager.py` lines 17-29: on a
read error the exception is caught (a warning is printed) and the state
is left as freshly initialised; on success, if the frame is non-empty the
live cash/shares are taken from the last row and the record history is
reloaded from the file. -/
def TradeManager.load_state (tm : TradeManager) (read : Except Unit (List Record)) :
    TradeManager :=
  match read with
  | Except.error _ => tm
  | Except.ok rows =>
    match rows.getLast? with
    | none => tm
    | some last_row =>
      { tm with capital := last_row.Cash, shares := last_row.Shares, records := rows }

/-- `TradeManager.__init__` from `trade_manager.py` lines 5-15: start
with `capital = initial_capital`, `shares = 0`, empty records; if the
Excel file exists, call `load_state` on its read outcome. -/
def TradeManager.mk_init (ticker : String) (initial_capital : ℚ) (store : StoreRead) :
    TradeManager :=
  let tm : TradeManager :=
    { ticker := ticker, capital := initial_capital, shares := 0,
      initial_capital := initial_capital, records := [],
      persisted := match store with | StoreRead.ok rows => rows | _ => [] }
  match store with
  | StoreRead.absent => tm
  | StoreRead.unreadable => tm.load_state (Except.error ())
  | StoreRead.ok rows => tm.load_state (Except.ok rows)

instance {ε α : Type} [DecidableEq ε] [DecidableEq α] : DecidableEq (Except ε α) :=
  fun x y =>
  match x, y with
  | Except.ok a, Except.ok b =>
    if h : a = b then Decidable.isTrue (by rw [h])
    else Decidable.isFalse (by intro hc; cases hc; exact h rfl)
  | Except.error a, Except.error b =>
    if h : a = b then Decidable.isTrue (by rw [h])
    else Decidable.isFalse (by intro hc; cases hc; exact h rfl)
  | Except.ok _, Except.error _ => Decidable.isFalse (by intro hc; cases hc)
  | Except.error _, Except.ok _ => Decidable.isFalse (by intro hc; cases hc)

/-- Per-day external inputs of the orchestrator loop in
`backtest_runner.py`: the analysis date, the resolved T+1 date and price,
the decision artifact (`none` = `final_trade_decision.md` does not exist;
`some (Except.ok s)` = it exists and reading+parsing yields signal `s`;
`some (Except.error ())` = it exists but reading/parsing raises), the
outcome of `run_analysis_execution` were it invoked, and whether the
Excel write performed inside `execute_trade` succeeds that day. -/
structure DayInput where
  analysis_date : String
  next_date : String
  next_open : ℚ
  artifact : Option (Except Unit String)
  ai_result : Except Unit String
  persist_ok : Bool
deriving Repr, DecidableEq

/-- An uncaught Python exception aborting the whole `main()` run. -/
inductive RunError where
  | attributeError
deriving Repr, DecidableEq

/-- The signal-resolution block of `backtest_runner.py` lines 88-121.
If the report exists and reads+parses, its signal is used (the re-check
`if not report_path.exists()` is `False`, so the AI is skipped).  If the
report exists but reading raises, the handler sets `report_path = None`,
and the subsequent `report_path.exists()` call raises `AttributeError`
(`NoneType` has no attribute `exists`), which no enclosing handler
catches.  If the report does not exist, the AI runs; an AI failure is
caught and `HOLD` is substituted. -/
def resolveSignal (day : DayInput) : Except RunError String :=
  match day.artifact with
  | some (Except.ok parsed) => Except.ok parsed
  | some (Except.error _) => Except.error RunError.attributeError
  | none =>
    match day.ai_result with
    | Except.ok sig => Except.ok sig
    | Except.error _ => Except.ok "HOLD"

/-- One iteration of the per-day loop of `backtest_runner.py` (the
commented-out duplicate-date check is absent, so no skipping happens):
resolve the signal, then run `trader.execute_trade` inside a
`try/except` — a persistence exception is caught and logged, and the
loop keeps the mutated in-memory trader object. -/
def processDay (tm : TradeManager) (day : DayInput) : Except RunError TradeManager :=
  match resolveSignal day with
  | Except.error e => Except.error e
  | Except.ok sig =>
    Except.ok (tm.execute_trade day.next_date sig day.next_open day.persist_ok).1

/-- The per-ticker day loop of `backtest_runner.py` `main`: fold
`processDay` over the trading-day list; an uncaught exception aborts the
run. -/
def runDays (tm : TradeManager) : List DayInput → Except RunError TradeManager
  | [] => Except.ok tm
  | day :: rest =>
    match processDay tm day with
    | Except.error e => Except.error e
    | Except.ok tm' => runDays tm' rest

/-- State of the `smart_rate_limit` gate in
`tradingagents/dataflows/alpha_vantage_news.py`: the module-level
`_last_request_time` (initially `0`). -/
structure GateState where
  lastRequestTime : ℚ
deriving Repr, DecidableEq

/-- One guarded call through `smart_rate_limit`: under the lock, read the
clock (`arrival`), compute `elapsed` since `_last_request_time`, sleep
for `2 - elapsed` when positive, run the wrapped call (taking
`processing` time), and in the `finally` block stamp
`_last_request_time` with the completion time.  Returns the new gate
state, the call's start time, and its completion time. -/
def smart_rate_limit_step (g : GateState) (arrival processing : ℚ) :
    GateState × ℚ × ℚ :=
  let current_time := arrival
  let elapsed_time := current_time - g.lastRequestTime
  let wait_time := 2 - elapsed_time
  let start := if 0 < wait_time then current_time + wait_time else current_time
  let done := start + processing
  ({ lastRequestTime := done }, start, done)

/-- A sequence of guarded calls serialized by the gate's lock: each entry
is (lock-acquired clock reading, processing time); returns the (start,
completion) times of every call in order. -/
def runCalls (g : GateState) : List (ℚ × ℚ) → List (ℚ × ℚ)
  | [] => []
  | (a, p) :: rest =>
    let r := smart_rate_limit_step g a p
    (r.2.1, r.2.2) :: runCalls r.1 rest

/-- Start times of a serialized sequence of guarded calls. -/
def startTimes (g : GateState) (calls : List (ℚ × ℚ)) : List ℚ :=
  (runCalls g calls).map Prod.fst

/-- Ledger conservation for one record, relative to an initial capital:
the stored total value is cash plus shares at the execution price, and
the stored cumulative return is the rounded exact formula. -/
def recordConservation (ic : ℚ) (r : Record) : Prop :=
  r.Total_Value = r.Cash + (r.Shares : ℚ) * r.Open_Price ∧
  r.Cumulative_Return_Pct = round2 ((r.Total_Value - ic) / ic * 100)

instance (ic : ℚ) (r : Record) : Decidable (recordConservation ic r) := by
  unfold recordConservation; infer_instance

/-- A ledger with cash 1000, no shares, used as a concrete starting state. -/
def demoTM : TradeManager := TradeManager.mk_init "AMZN" 1000 StoreRead.absent

/-- A ledger holding 10 shares and no cash, used as a concrete starting state. -/
def sellTM : TradeManager :=
  { ticker := "AMZN", capital := 0, shares := 10, initial_capital := 1000,
    records := [], persisted := [] }

/-- A trading day whose decision artifact exists and parses to HOLD, with a
succeeding Excel write. -/
def resumeDay : DayInput :=
  { analysis_date := "2025-01-02", next_date := "2025-01-03", next_open := 10,
    artifact := some (Except.ok "HOLD"), ai_result := Except.ok "HOLD",
    persist_ok := true }

/-- A trading day whose decision artifact exists but cannot be read. -/
def badDay : DayInput :=
  { analysis_date := "2025-01-02", next_date := "2025-01-03", next_open := 10,
    artifact := some (Except.error ()), ai_result := Except.ok "BUY",
    persist_ok := true }

/-- A trading day whose artifact parses to HOLD but whose Excel write fails. -/
def failDay : DayInput :=
  { analysis_date := "2025-01-02", next_date := "2025-01-03", next_open := 10,
    artifact := some (Except.ok "HOLD"), ai_result := Except.ok "HOLD",
    persist_ok := false }

/-- Characterisation of `Rat.floor` by the usual floor inequalities. -/
lemma ratFloor_eq (q : ℚ) (z : ℤ) (h1 : (z : ℚ) ≤ q) (h2 : q < z + 1) :
    Rat.floor q = z := by
  have a := Rat.le_floor.mpr h1
  have b : ¬ (z + 1) ≤ Rat.floor q := by
    intro h
    have := Rat.le_floor.mp h
    push_cast at this
    linarith
  omega

lemma execute_trade_fst_records (tm : TradeManager) (date sig : String) (p : ℚ)
    (pk : Bool) :
    (tm.execute_trade date sig p pk).1.records
      = tm.records ++ [(tm.execute_trade date sig p pk).2] := by
  cases pk <;> rfl

lemma execute_trade_fst_initial (tm : TradeManager) (date sig : String) (p : ℚ)
    (pk : Bool) :
    (tm.execute_trade date sig p pk).1.initial_capital = tm.initial_capital := by
  cases pk <;> rfl

lemma execute_trade_persisted_false (tm : TradeManager) (date sig : String) (p : ℚ) :
    (tm.execute_trade date sig p false).1.persisted = tm.persisted := rfl

lemma execute_trade_persisted_true (tm : TradeManager) (date sig : String) (p : ℚ) :
    (tm.execute_trade date sig p true).1.persisted
      = tm.records ++ [(tm.execute_trade date sig p true).2] := rfl

lemma execute_trade_snd_conservation (tm : TradeManager) (date sig : String) (p : ℚ)
    (pk : Bool) :
    recordConservation tm.initial_capital (tm.execute_trade date sig p pk).2 := by
  cases pk <;> exact ⟨rfl, rfl⟩

/-- C5: for cash > 0 and price > 0, a BUY computes
`buy_shares = floor(cash / price)`; when it is 0 the action degrades to
HOLD with zero delta and unchanged state, otherwise cash drops by
`buy_shares * price`, shares grow by `buy_shares`, and the action is BUY. -/
theorem C5_buy_all_in (tm : TradeManager) (date : String) (price : ℚ) (pk : Bool)
    (hc : 0 < tm.capital) (hp : 0 < price) :
    (Rat.floor (tm.capital / price) = 0 →
      (tm.execute_trade date "BUY" price pk).2.Action = "HOLD" ∧
      (tm.execute_trade date "BUY" price pk).2.Shares_Delta = 0 ∧
      (tm.execute_trade date "BUY" price pk).1.capital = tm.capital ∧
      (tm.execute_trade date "BUY" price pk).1.shares = tm.shares) ∧
    (0 < Rat.floor (tm.capital / price) →
      (tm.execute_trade date "BUY" price pk).1.capital
        = tm.capital - (Rat.floor (tm.capital / price) : ℚ) * price ∧
      (tm.execute_trade date "BUY" price pk).1.shares
        = tm.shares + Rat.floor (tm.capital / price) ∧
      (tm.execute_trade date "BUY" price pk).2.Action = "BUY") := by
  constructor
  · intro h0
    cases pk <;>
      simp [TradeManager.execute_trade, TradeManager.save_to_excel, hc, mul_one, h0]
  · intro hbs
    cases pk <;>
      simp [TradeManager.execute_trade, TradeManager.save_to_excel, hc, mul_one, hbs]

/-- C5 witness: the spec's worked example cash = 1000, price = 300 gives
3 shares bought, 100 cash left. -/
theorem C5_buy_witness :
    0 < demoTM.capital ∧ (0 : ℚ) < 300 ∧
    (demoTM.execute_trade "2025-01-03" "BUY" 300 true).1.capital = 100 ∧
    (demoTM.execute_trade "2025-01-03" "BUY" 300 true).1.shares = 3 ∧
    (demoTM.execute_trade "2025-01-03" "BUY" 300 true).2.Action = "BUY" := by
  have hcap : demoTM.capital = (1000 : ℚ) := rfl
  have hsh : demoTM.shares = (0 : ℤ) := rfl
  have hf : Rat.floor (demoTM.capital / 300) = 3 := by
    rw [hcap]
    exact ratFloor_eq _ 3 (by norm_num) (by norm_num)
  have h := (C5_buy_all_in demoTM "2025-01-03" 300 true (by rw [hcap]; norm_num)
    (by norm_num)).2 (by rw [hf]; norm_num)
  refine ⟨by rw [hcap]; norm_num, by norm_num, ?_, ?_, h.2.2⟩
  · rw [h.1, hf, hcap]
    norm_num
  · rw [h.2.1, hf, hsh]
    norm_num

/-- C6: for shares > 0 and price > 0, a SELL liquidates the whole
position (cash grows by shares*price, shares become 0, action SELL); a
BUY with no cash, a SELL with no shares, and a HOLD signal all act as
HOLD with unchanged state. -/
theorem C6_sell_liquidates_and_hold (tm : TradeManager) (date : String) (price : ℚ)
    (pk : Bool) (hp : 0 < price) :
    (0 < tm.shares →
      (tm.execute_trade date "SELL" price pk).1.capital
        = tm.capital + (tm.shares : ℚ) * price ∧
      (tm.execute_trade date "SELL" price pk).1.shares = 0 ∧
      (tm.execute_trade date "SELL" price pk).2.Action = "SELL") ∧
    (tm.capital = 0 →
      (tm.execute_trade date "BUY" price pk).2.Action = "HOLD" ∧
      (tm.execute_trade date "BUY" price pk).1.capital = tm.capital ∧
      (tm.execute_trade date "BUY" price pk).1.shares = tm.shares) ∧
    (tm.shares = 0 →
      (tm.execute_trade date "SELL" price pk).2.Action = "HOLD" ∧
      (tm.execute_trade date "SELL" price pk).1.capital = tm.capital ∧
      (tm.execute_trade date "SELL" price pk).1.shares = tm.shares) ∧
    ((tm.execute_trade date "HOLD" price pk).2.Action = "HOLD" ∧
      (tm.execute_trade date "HOLD" price pk).1.capital = tm.capital ∧
      (tm.execute_trade date "HOLD" price pk).1.shares = tm.shares) := by
  refine ⟨?_, ?_, ?_, ?_⟩
  · intro hs
    cases pk <;>
      simp [TradeManager.execute_trade, TradeManager.save_to_excel, hs,
        show ("SELL" = "BUY") = False by simp]
  · intro hc0
    cases pk <;>
      simp [TradeManager.execute_trade, TradeManager.save_to_excel, hc0,
        show ("BUY" = "SELL") = False by simp]
  · intro hs0
    cases pk <;>
      simp [TradeManager.execute_trade, TradeManager.save_to_excel, hs0,
        show ("SELL" = "BUY") = False by simp]
  · cases pk <;>
      simp [TradeManager.execute_trade, TradeManager.save_to_excel,
        show ("HOLD" = "BUY") = False by simp,
        show ("HOLD" = "SELL") = False by simp]

/-- C6 witness: the spec's worked example shares = 10, price = 50 gives
cash 500 and an empty position. -/
theorem C6_sell_witness :
    (0 : ℚ) < 50 ∧ 0 < sellTM.shares ∧
    (sellTM.execute_trade "2025-01-03" "SELL" 50 true).1.capital = 500 ∧
    (sellTM.execute_trade "2025-01-03" "SELL" 50 true).1.shares = 0 ∧
    (sellTM.execute_trade "2025-01-03" "SELL" 50 true).2.Action = "SELL" := by
  have h := (C6_sell_liquidates_and_hold sellTM "2025-01-03" 50 true (by norm_num)).1
    (by decide)
  refine ⟨by norm_num, by decide, ?_, h.2.1, h.2.2⟩
  rw [h.1, show sellTM.capital = (0 : ℚ) from rfl, show sellTM.shares = (10 : ℤ) from rfl]
  norm_num

/-- C10: any signal other than BUY and SELL (not just HOLD) is total and
acts as HOLD: unchanged cash and shares, zero deltas, and exactly one
record appended at the end of the record list. -/
theorem C10_unknown_signal_holds (tm : TradeManager) (date sig : String) (price : ℚ)
    (pk : Bool) (h1 : sig ≠ "BUY") (h2 : sig ≠ "SELL") (hp : 0 < price) :
    (tm.execute_trade date sig price pk).2.Action = "HOLD" ∧
    (tm.execute_trade date sig price pk).1.capital = tm.capital ∧
    (tm.execute_trade date sig price pk).1.shares = tm.shares ∧
    (tm.execute_trade date sig price pk).2.Shares_Delta = 0 ∧
    (tm.execute_trade date sig price pk).2.Transaction_Amount = 0 ∧
    (tm.execute_trade date sig price pk).1.records
      = tm.records ++ [(tm.execute_trade date sig price pk).2] := by
  cases pk <;>
    simp [TradeManager.execute_trade, TradeManager.save_to_excel, h1, h2]

/-- C10 witness: the unknown signal FOO on a live ledger acts as HOLD
and still appends a record. -/
theorem C10_unknown_witness :
    ("FOO" : String) ≠ "BUY" ∧ ("FOO" : String) ≠ "SELL" ∧ (0 : ℚ) < 10 ∧
    ((demoTM.execute_trade "2025-01-03" "FOO" 10 true).2.Action = "HOLD" ∧
     (demoTM.execute_trade "2025-01-03" "FOO" 10 true).1.capital = demoTM.capital ∧
     (demoTM.execute_trade "2025-01-03" "FOO" 10 true).1.shares = demoTM.shares ∧
     (demoTM.execute_trade "2025-01-03" "FOO" 10 true).2.Shares_Delta = 0 ∧
     (demoTM.execute_trade "2025-01-03" "FOO" 10 true).2.Transaction_Amount = 0 ∧
     (demoTM.execute_trade "2025-01-03" "FOO" 10 true).1.records
       = demoTM.records ++ [(demoTM.execute_trade "2025-01-03" "FOO" 10 true).2]) :=
  ⟨by decide, by decide, by norm_num,
    C10_unknown_signal_holds demoTM "2025-01-03" "FOO" 10 true (by decide) (by decide)
      (by norm_num)⟩

lemma runDays_conservation (ic : ℚ) :
    ∀ (days : List DayInput) (tm tm' : TradeManager),
      tm.initial_capital = ic → (∀ r ∈ tm.records, recordConservation ic r) →
      runDays tm days = Except.ok tm' →
      tm'.initial_capital = ic ∧ ∀ r ∈ tm'.records, recordConservation ic r := by
  intro days
  induction days with
  | nil =>
    intro tm tm' h1 h2 hrun
    simp only [runDays] at hrun
    cases hrun
    exact ⟨h1, h2⟩
  | cons d rest ih =>
    intro tm tm' h1 h2 hrun
    simp only [runDays, processDay] at hrun
    cases hres : resolveSignal d with
    | error e => rw [hres] at hrun; cases hrun
    | ok sig =>
      rw [hres] at hrun
      refine ih _ tm' ?_ ?_ hrun
      · rw [execute_trade_fst_initial]; exact h1
      · rw [execute_trade_fst_records]
        intro r hr
        rcases List.mem_append.mp hr with hl | hg
        · exact h2 r hl
        · rw [List.mem_singleton.mp hg]
          have := execute_trade_snd_conservation tm d.next_date sig d.next_open
            d.persist_ok
          rwa [h1] at this

/-- C7: every record in the ledger produced by a completed orchestrator
run satisfies `Total_Value = Cash + Shares * Open_Price` exactly, and
`Cumulative_Return_Pct = round2 ((Total_Value - ic) / ic * 100)`. -/
theorem C7_ledger_conservation (ticker : String) (ic : ℚ) (days : List DayInput)
    (tm' : TradeManager)
    (hrun : runDays (TradeManager.mk_init ticker ic StoreRead.absent) days
      = Except.ok tm') :
    ∀ r ∈ tm'.records, recordConservation ic r :=
  (runDays_conservation ic days _ tm' rfl (by intro r hr; cases hr) hrun).2

/-- The final ledger of a one-day demo run, used as a concrete witness. -/
def conservationDemoFinal : TradeManager :=
  match runDays (TradeManager.mk_init "AMZN" 100000 StoreRead.absent) [resumeDay] with
  | Except.ok tm => tm
  | Except.error _ => TradeManager.mk_init "AMZN" 100000 StoreRead.absent

/-- C7 witness: the one-day demo run completes and every produced record
satisfies the conservation identities. -/
theorem C7_conservation_witness :
    runDays (TradeManager.mk_init "AMZN" 100000 StoreRead.absent) [resumeDay]
      = Except.ok conservationDemoFinal ∧
    ∀ r ∈ conservationDemoFinal.records, recordConservation 100000 r :=
  ⟨rfl, C7_ledger_conservation "AMZN" 100000 [resumeDay] conservationDemoFinal rfl⟩

/-- C8: loading a non-empty persisted ledger reconstructs cash/shares
from the last row's `Cash`/`Shares` and reloads the history; an absent or
unreadable store yields the initial state (cash = initial capital, zero
shares) without raising. -/
theorem C8_load_resume (ticker : String) (ic : ℚ) (rows : List Record)
    (last_row : Record) (h : rows.getLast? = some last_row) :
    ((TradeManager.mk_init ticker ic (StoreRead.ok rows)).capital = last_row.Cash ∧
     (TradeManager.mk_init ticker ic (StoreRead.ok rows)).shares = last_row.Shares ∧
     (TradeManager.mk_init ticker ic (StoreRead.ok rows)).records = rows) ∧
    ((TradeManager.mk_init ticker ic StoreRead.absent).capital = ic ∧
     (TradeManager.mk_init ticker ic StoreRead.absent).shares = 0 ∧
     (TradeManager.mk_init ticker ic StoreRead.absent).records = []) ∧
    ((TradeManager.mk_init ticker ic StoreRead.unreadable).capital = ic ∧
     (TradeManager.mk_init ticker ic StoreRead.unreadable).shares = 0 ∧
     (TradeManager.mk_init ticker ic StoreRead.unreadable).records = []) := by
  refine ⟨?_, ⟨rfl, rfl, rfl⟩, ⟨rfl, rfl, rfl⟩⟩
  simp [TradeManager.mk_init, TradeManager.load_state, h]

/-- A persisted row with Cash 5000 and Shares 7, the spec's load-resume
example. -/
def sampleRecord : Record :=
  { Date := "2025-01-03", Ticker := "AMZN", Signal := "BUY", Action := "BUY",
    Open_Price := 100, Shares_Delta := 7, Transaction_Amount := 700,
    Cash := 5000, Shares := 7, Total_Value := 5700, Cumulative_Return_Pct := 0 }

/-- C8 witness: loading a ledger whose last row has Cash 5000 and
Shares 7 yields live cash 5000 and 7 shares, not the initial capital. -/
theorem C8_load_witness :
    ([sampleRecord].getLast? = some sampleRecord) ∧
    (((TradeManager.mk_init "AMZN" 100000 (StoreRead.ok [sampleRecord])).capital
        = sampleRecord.Cash ∧
      (TradeManager.mk_init "AMZN" 100000 (StoreRead.ok [sampleRecord])).shares
        = sampleRecord.Shares ∧
      (TradeManager.mk_init "AMZN" 100000 (StoreRead.ok [sampleRecord])).records
        = [sampleRecord]) ∧
     ((TradeManager.mk_init "AMZN" 100000 StoreRead.absent).capital = 100000 ∧
      (TradeManager.mk_init "AMZN" 100000 StoreRead.absent).shares = 0 ∧
      (TradeManager.mk_init "AMZN" 100000 StoreRead.absent).records = []) ∧
     ((TradeManager.mk_init "AMZN" 100000 StoreRead.unreadable).capital = 100000 ∧
      (TradeManager.mk_init "AMZN" 100000 StoreRead.unreadable).shares = 0 ∧
      (TradeManager.mk_init "AMZN" 100000 StoreRead.unreadable).records = [])) :=
  ⟨rfl, C8_load_resume "AMZN" 100000 [sampleRecord] sampleRecord rfl⟩

/-- C2 counterexample: `execute_trade` is not persistence-free — a single
call on a fresh ledger changes the durable Excel content (it performs the
write itself via `save_to_excel`), refuting "performs no persistence;
writing the ledger to durable storage is done by the caller". -/
theorem C2_persistence_counterexample :
    (demoTM.execute_trade "2025-01-03" "HOLD" 10 true).1.persisted
      ≠ demoTM.persisted := by
  intro h
  have h1 : (demoTM.execute_trade "2025-01-03" "HOLD" 10 true).1.persisted.length = 1 :=
    rfl
  have h2 : demoTM.persisted.length = 0 := rfl
  rw [h, h2] at h1
  cases h1

/-- C2 amended: `execute_trade` is a deterministic function of
(state, signal, price), but it performs the persistence itself: on a
successful write the durable store afterwards equals the in-memory
record list including the freshly appended record; the orchestrator has
no separate persist step. -/
theorem C2_executor_persists_itself (tm : TradeManager) (date signal : String)
    (price : ℚ) :
    (tm.execute_trade date signal price true).1.persisted
      = tm.records ++ [(tm.execute_trade date signal price true).2] ∧
    (tm.execute_trade date signal price true).1.persisted
      = (tm.execute_trade date signal price true).1.records :=
  ⟨execute_trade_persisted_true tm date signal price,
   by rw [execute_trade_persisted_true, execute_trade_fst_records]⟩

lemma step_start_lb (g : GateState) (a p : ℚ) :
    g.lastRequestTime + 2 ≤ (smart_rate_limit_step g a p).2.1 := by
  simp only [smart_rate_limit_step]
  by_cases h : 0 < 2 - (a - g.lastRequestTime)
  · rw [if_pos h]
    linarith
  · rw [if_neg h]
    linarith

lemma step_last_eq (g : GateState) (a p : ℚ) :
    (smart_rate_limit_step g a p).1.lastRequestTime
      = (smart_rate_limit_step g a p).2.1 + p := rfl

lemma startTimes_cons (g : GateState) (a p : ℚ) (rest : List (ℚ × ℚ)) :
    startTimes g ((a, p) :: rest)
      = (smart_rate_limit_step g a p).2.1
          :: startTimes (smart_rate_limit_step g a p).1 rest := rfl

lemma startTimes_chain (calls : List (ℚ × ℚ)) :
    ∀ g : GateState, (∀ c ∈ calls, 0 ≤ c.2) →
      List.Chain' (fun s t => s + 2 ≤ t) (startTimes g calls) ∧
      ∀ s ∈ (startTimes g calls).head?, g.lastRequestTime + 2 ≤ s := by
  induction calls with
  | nil =>
    intro g _
    exact ⟨List.chain'_nil, by intro s hs; cases hs⟩
  | cons c rest ih =>
    intro g hp
    obtain ⟨a, p⟩ := c
    have hp0 : (0 : ℚ) ≤ p := hp (a, p) (List.mem_cons_self _ _)
    have hrest := ih (smart_rate_limit_step g a p).1
      (fun c hc => hp c (List.mem_cons_of_mem _ hc))
    rw [startTimes_cons]
    constructor
    · refine List.chain'_cons'.mpr ⟨?_, hrest.1⟩
      intro y hy
      have hlb := hrest.2 y hy
      rw [step_last_eq] at hlb
      linarith
    · intro s hs
      simp only [List.head?_cons, Option.mem_def, Option.some.injEq] at hs
      rw [← hs]
      exact step_start_lb g a p

lemma chain_head_last (l : List ℚ) :
    List.Chain' (fun s t => s + 2 ≤ t) l →
    ∀ a b, l.head? = some a → l.getLast? = some b →
      a + 2 * ((l.length - 1 : ℕ) : ℚ) ≤ b := by
  induction l with
  | nil => intro _ a b ha; cases ha
  | cons x t ih =>
    intro hch a b ha hb
    rw [List.head?_cons, Option.some.injEq] at ha
    cases t with
    | nil =>
      rw [List.getLast?_singleton, Option.some.injEq] at hb
      subst ha; subst hb
      norm_num
    | cons y t2 =>
      have hxy : x + 2 ≤ y := (List.chain'_cons.mp hch).1
      have ihy := ih (List.chain'_cons.mp hch).2 y b rfl
        (by rw [← List.getLast?_cons_cons]; exact hb)
      subst ha
      have hlen1 : ((y :: t2).length - 1 : ℕ) = t2.length := by simp
      have hlen2 : ((x :: y :: t2).length - 1 : ℕ) = t2.length + 1 := by simp
      rw [hlen1] at ihy
      rw [hlen2]
      push_cast
      linarith

lemma startTimes_length (calls : List (ℚ × ℚ)) :
    ∀ g : GateState, (startTimes g calls).length = calls.length := by
  induction calls with
  | nil => intro g; rfl
  | cons c rest ih =>
    intro g
    obtain ⟨a, p⟩ := c
    rw [startTimes_cons, List.length_cons, ih, List.length_cons]

/-- C9: for any serialized sequence of guarded calls with non-negative
processing times, consecutive call start times are at least 2 seconds
apart, and the first and last starts of N calls are at least
`(N - 1) * 2` seconds apart — so N sequential calls with zero processing
time take at least `(N - 1) * 2` seconds of wall-clock time. -/
theorem C9_throttle_spacing (g : GateState) (calls : List (ℚ × ℚ))
    (hp : ∀ c ∈ calls, 0 ≤ c.2) :
    List.Chain' (fun s t => s + 2 ≤ t) (startTimes g calls) ∧
    ∀ a b, (startTimes g calls).head? = some a →
      (startTimes g calls).getLast? = some b →
      a + 2 * ((calls.length - 1 : ℕ) : ℚ) ≤ b := by
  refine ⟨(startTimes_chain calls g hp).1, ?_⟩
  intro a b ha hb
  have := chain_head_last (startTimes g calls) (startTimes_chain calls g hp).1 a b ha hb
  rwa [startTimes_length] at this

/-- C9 witness: three zero-processing calls arriving together at time 5
start at least 2 seconds apart, spanning at least 4 seconds. -/
theorem C9_throttle_witness :
    (∀ c ∈ [((5 : ℚ), (0 : ℚ)), (5, 0), (5, 0)], 0 ≤ c.2) ∧
    (List.Chain' (fun s t => s + 2 ≤ t)
      (startTimes { lastRequestTime := 0 } [((5 : ℚ), (0 : ℚ)), (5, 0), (5, 0)]) ∧
     ∀ a b,
       (startTimes { lastRequestTime := 0 }
         [((5 : ℚ), (0 : ℚ)), (5, 0), (5, 0)]).head? = some a →
       (startTimes { lastRequestTime := 0 }
         [((5 : ℚ), (0 : ℚ)), (5, 0), (5, 0)]).getLast? = some b →
       a + 2 * (([((5 : ℚ), (0 : ℚ)), (5, 0), (5, 0)].length - 1 : ℕ) : ℚ) ≤ b) :=
  ⟨by norm_num, C9_throttle_spacing { lastRequestTime := 0 } _ (by norm_num)⟩

/-- The final ledger of a completed one-day first run, starting cold. -/
def firstRunLedger : TradeManager :=
  match runDays (TradeManager.mk_init "AMZN" 100000 StoreRead.absent) [resumeDay] with
  | Except.ok tm => tm
  | Except.error _ => TradeManager.mk_init "AMZN" 100000 StoreRead.absent

/-- The final ledger of re-running the same trading-day list from the
ledger persisted by the first run. -/
def rerunLedger : TradeManager :=
  match runDays
      (TradeManager.mk_init "AMZN" 100000 (StoreRead.ok firstRunLedger.persisted))
      [resumeDay] with
  | Except.ok tm => tm
  | Except.error _ =>
    TradeManager.mk_init "AMZN" 100000 (StoreRead.ok firstRunLedger.persisted)

/-- C1 counterexample: running one trading day to completion and then
re-running the same day list from the persisted ledger does NOT produce
an identical final ledger — the date is reprocessed (the resume-check is
commented out in `backtest_runner.py`), so the re-run appends a duplicate
record for the already-processed date. -/
theorem C1_resume_counterexample :
    runDays (TradeManager.mk_init "AMZN" 100000 StoreRead.absent) [resumeDay]
      = Except.ok firstRunLedger ∧
    runDays (TradeManager.mk_init "AMZN" 100000 (StoreRead.ok firstRunLedger.persisted))
      [resumeDay] = Except.ok rerunLedger ∧
    firstRunLedger.records.map Record.Date = ["2025-01-03"] ∧
    rerunLedger.records.map Record.Date = ["2025-01-03", "2025-01-03"] ∧
    rerunLedger.records ≠ firstRunLedger.records := by
  refine ⟨rfl, rfl, rfl, rfl, ?_⟩
  intro h
  have h1 : rerunLedger.records.length = 2 := rfl
  have h2 : firstRunLedger.records.length = 1 := rfl
  rw [h, h2] at h1
  cases h1

/-- C1 amended: re-running the orchestrator from a persisted ledger does
not skip already-processed dates — every day whose artifact does not
crash the run is reprocessed and appends exactly one fresh record, so
the final record list grows by the full length of the day list. -/
theorem C1_resume_reprocesses (tm : TradeManager) (days : List DayInput)
    (h : ∀ d ∈ days, d.artifact ≠ some (Except.error ())) :
    ∃ tm', runDays tm days = Except.ok tm' ∧
      tm'.records.length = tm.records.length + days.length := by
  induction days generalizing tm with
  | nil => exact ⟨tm, rfl, by simp⟩
  | cons d rest ih =>
    have hd := h d (List.mem_cons_self _ _)
    have hsig : ∃ s, resolveSignal d = Except.ok s := by
      unfold resolveSignal
      cases hart : d.artifact with
      | none =>
        cases hai : d.ai_result with
        | ok s => exact ⟨s, rfl⟩
        | error e => exact ⟨"HOLD", rfl⟩
      | some res =>
        cases res with
        | ok s => exact ⟨s, rfl⟩
        | error e => cases e; exact absurd hart hd
    obtain ⟨s, hs⟩ := hsig
    obtain ⟨tm', hrun, hlen⟩ :=
      ih (tm.execute_trade d.next_date s d.next_open d.persist_ok).1
        (fun d' hd' => h d' (List.mem_cons_of_mem _ hd'))
    refine ⟨tm', ?_, ?_⟩
    · simp only [runDays, processDay, hs]
      exact hrun
    · rw [hlen, execute_trade_fst_records, List.length_append,
        List.length_singleton, List.length_cons]
      omega

/-- C1 witness: on a one-day list whose artifact is readable, the run
completes and appends exactly one record on top of the loaded history. -/
theorem C1_resume_witness :
    (∀ d ∈ [resumeDay], d.artifact ≠ some (Except.error ())) ∧
    ∃ tm', runDays firstRunLedger [resumeDay] = Except.ok tm' ∧
      tm'.records.length = firstRunLedger.records.length + [resumeDay].length :=
  ⟨by decide, C1_resume_reprocesses firstRunLedger [resumeDay] (by decide)⟩

/-- C3: when a day's decision artifact exists but reading it fails, the
run does not fall back to regeneration: the handler sets
`report_path = None` and the following `report_path.exists()` raises
`AttributeError`, aborting the whole run before any later day (here a
perfectly fine second day) is processed. -/
theorem C3_artifact_failure_aborts_run :
    runDays (TradeManager.mk_init "AMZN" 100000 StoreRead.absent) [badDay, resumeDay]
      = Except.error RunError.attributeError ∧
    resolveSignal badDay = Except.error RunError.attributeError :=
  ⟨rfl, rfl⟩

/-- The ledger after a one-day run whose Excel write fails. -/
def failedPersistLedger : TradeManager :=
  match runDays (TradeManager.mk_init "AMZN" 100000 StoreRead.absent) [failDay] with
  | Except.ok tm => tm
  | Except.error _ => TradeManager.mk_init "AMZN" 100000 StoreRead.absent

/-- C4 counterexample: on a day whose persistence fails, the loop does
continue (the run still completes), but the in-memory ledger does NOT
stay at the last successfully persisted state: the day's record is
retained in `records` while the durable store still holds the prior
(empty) content. -/
theorem C4_persist_counterexample :
    runDays (TradeManager.mk_init "AMZN" 100000 StoreRead.absent) [failDay]
      = Except.ok failedPersistLedger ∧
    failedPersistLedger.persisted = [] ∧
    failedPersistLedger.records.length = 1 ∧
    failedPersistLedger.records ≠ failedPersistLedger.persisted := by
  refine ⟨rfl, rfl, rfl, ?_⟩
  intro h
  have h1 : failedPersistLedger.records.length = 1 := rfl
  have h2 : failedPersistLedger.persisted.length = 0 := rfl
  rw [h, h2] at h1
  cases h1

/-- C4 amended: when the Excel write fails on a day whose artifact
resolves, the exception is caught and the loop continues to the
remaining days; the durable store keeps the last successfully persisted
content, but the in-memory ledger retains the day's mutation (the day's
record is appended to `records`). -/
theorem C4_persist_failure_keeps_mutation (tm : TradeManager) (day : DayInput)
    (rest : List DayInput) (sig : String)
    (h1 : day.artifact = some (Except.ok sig)) (h2 : day.persist_ok = false) :
    runDays tm (day :: rest)
      = runDays (tm.execute_trade day.next_date sig day.next_open false).1 rest ∧
    (tm.execute_trade day.next_date sig day.next_open false).1.persisted
      = tm.persisted ∧
    (tm.execute_trade day.next_date sig day.next_open false).1.records
      = tm.records ++ [(tm.execute_trade day.next_date sig day.next_open false).2] := by
  refine ⟨?_, execute_trade_persisted_false tm day.next_date sig day.next_open,
    execute_trade_fst_records tm day.next_date sig day.next_open false⟩
  simp only [runDays, processDay, resolveSignal, h1, h2]

/-- C4 witness: the failing-persist day is caught and processed in
memory, leaving the durable store untouched. -/
theorem C4_persist_witness :
    failDay.artifact = some (Except.ok "HOLD") ∧ failDay.persist_ok = false ∧
    (runDays demoTM [failDay]
      = runDays (demoTM.execute_trade failDay.next_date "HOLD" failDay.next_open
          false).1 [] ∧
     (demoTM.execute_trade failDay.next_date "HOLD" failDay.next_open false).1.persisted
       = demoTM.persisted ∧
     (demoTM.execute_trade failDay.next_date "HOLD" failDay.next_open false).1.records
       = demoTM.records
           ++ [(demoTM.execute_trade failDay.next_date "HOLD" failDay.next_open
                  false).2]) :=
  ⟨rfl, rfl, C4_persist_failure_keeps_mutation demoTM failDay [] "HOLD" rfl rfl⟩
